import Mathlib

/-!
Verification of the vital-sign simulation and status-classification engine
of a realtime patient-monitoring dashboard.

Shallow embedding conventions:
* JavaScript numbers are modelled as rationals (ℚ); timestamps as integers
  (milliseconds since epoch, the value of a monotone clock).
* Calls to the uniform random source (values in [0,1)) are modelled as
  explicit rational parameters, in the order the source draws them.
* The Box-Muller standard normal deviate z0 computed inside gaussianRandom
  (a transcendental expression in two uniform draws) is abstracted as an
  explicit parameter z ranging over all rationals; the source then returns
  z0 * stdDev + mean, which is embedded literally.
-/

/-- The five tracked vital signs (union type VitalType in the source). -/
inductive VitalType where
  | heartRate
  | systolic
  | diastolic
  | spo2
  | temperature
deriving DecidableEq

/-- Generation regime / trend bias: the inline union
normal | warning | critical used by the generators. -/
inductive Trend where
  | normal
  | warning
  | critical
deriving DecidableEq

/-- Severity returned by the classifier (PatientStatus in the source). -/
inductive PatientStatus where
  | stable
  | warning
  | critical
deriving DecidableEq

/-- Statistical parameter record of one vital (entries of VITAL_RANGES). -/
structure VitalRange where
  mean : ℚ
  stdDev : ℚ
  min : ℚ
  max : ℚ

/-- Normal ranges and statistical parameters for each vital type
(VITAL_RANGES in vital-generation.ts). -/
def VITAL_RANGES : VitalType → VitalRange
  | .heartRate => { mean := 75, stdDev := 8, min := 45, max := 150 }
  | .systolic => { mean := 120, stdDev := 10, min := 80, max := 180 }
  | .diastolic => { mean := 80, stdDev := 8, min := 50, max := 110 }
  | .spo2 => { mean := 98, stdDev := 1.5, min := 85, max := 100 }
  | .temperature => { mean := 36.8, stdDev := 0.3, min := 35.0, max := 40.0 }

/-- gaussianRandom from vital-generation.ts: the Box-Muller deviate z0 is
abstracted as the parameter z; the function returns z0 * stdDev + mean. -/
def gaussianRandom (z mean stdDev : ℚ) : ℚ :=
  z * stdDev + mean

/-- clamp from vital-generation.ts: Math.max(min, Math.min(max, value)). -/
def clamp (value lo hi : ℚ) : ℚ :=
  max lo (min hi value)

/-- generateBaselineValue from vital-generation.ts.
`coin` is the Math.random() draw deciding the shift direction
(used only in the warning and critical regimes); `z` is the abstracted
standard normal deviate fed to gaussianRandom. -/
def generateBaselineValue (vitalType : VitalType) (trend : Trend)
    (coin z : ℚ) : ℚ :=
  let range := VITAL_RANGES vitalType
  let value : ℚ :=
    match trend with
    | .normal => gaussianRandom z range.mean range.stdDev
    | .warning =>
      let warningMean := if coin > 0.5 then range.mean * 1.15 else range.mean * 0.9
      gaussianRandom z warningMean (range.stdDev * 1.2)
    | .critical =>
      let criticalMean := if coin > 0.5 then range.mean * 1.3 else range.mean * 0.8
      gaussianRandom z criticalMean (range.stdDev * 1.5)
  clamp value range.min range.max

/-- generateVitalUpdate from vital-generation.ts.
`u1` is the Math.random() draw for the proportional noise,
`u2` the draw compared against the worsening probability,
`u3` the draw deciding the worsening direction (consumed only when the
worsening branch is taken; as a pure function of the draw sequence the
unused parameter is harmless). -/
def generateVitalUpdate (currentValue : ℚ) (vitalType : VitalType)
    (trendBias : Trend) (u1 u2 u3 : ℚ) : ℚ :=
  let range := VITAL_RANGES vitalType
  let variation := currentValue * 0.015 * (u1 * 2 - 1)
  let driftStrength : ℚ := 0.08
  let drift : ℚ :=
    match trendBias with
    | .normal => (range.mean - currentValue) * driftStrength * 1.5
    | .warning =>
      if u2 < 0.05 then
        let warningTarget := if u3 > 0.5 then range.mean * 1.12 else range.mean * 0.92
        (warningTarget - currentValue) * driftStrength
      else
        (range.mean - currentValue) * driftStrength * 0.8
    | .critical =>
      if u2 < 0.08 then
        let criticalTarget := if u3 > 0.5 then range.max * 0.85 else range.min * 1.15
        (criticalTarget - currentValue) * driftStrength * 1.5
      else
        (range.mean - currentValue) * driftStrength * 0.5
  let nextValue := currentValue + variation + drift
  clamp nextValue range.min range.max

/-- One sample: VitalSign in types/patient. -/
structure VitalSign where
  timestamp : ℤ
  value : ℚ
deriving DecidableEq

/-- Threshold bands of one vital (VitalThreshold in the source); each band
is the inclusive pair [lo, hi]. -/
structure VitalThreshold where
  normalLo : ℚ
  normalHi : ℚ
  warningLo : ℚ
  warningHi : ℚ

/-- THRESHOLDS from vital-thresholds.ts (the critical band, unused by
getVitalStatus beyond the fallthrough, is omitted from the record). -/
def THRESHOLDS : VitalType → VitalThreshold
  | .heartRate => { normalLo := 60, normalHi := 100, warningLo := 50, warningHi := 120 }
  | .systolic => { normalLo := 90, normalHi := 140, warningLo := 80, warningHi := 160 }
  | .diastolic => { normalLo := 60, normalHi := 90, warningLo := 50, warningHi := 100 }
  | .spo2 => { normalLo := 95, normalHi := 100, warningLo := 90, warningHi := 95 }
  | .temperature => { normalLo := 36.0, normalHi := 37.5, warningLo := 35.5, warningHi := 38.5 }

/-- getVitalStatus from vital-thresholds.ts. -/
def getVitalStatus (value : ℚ) (vitalType : VitalType) : PatientStatus :=
  let threshold := THRESHOLDS vitalType
  if value ≥ threshold.normalLo ∧ value ≤ threshold.normalHi then
    .stable
  else if value ≥ threshold.warningLo ∧ value ≤ threshold.warningHi then
    .warning
  else
    .critical

/-- Bundle of the five series for one patient (VitalSigns in the source). -/
structure VitalSigns where
  heartRate : List VitalSign
  systolic : List VitalSign
  diastolic : List VitalSign
  spo2 : List VitalSign
  temperature : List VitalSign

/-- Field selection of a bundle by vital type. -/
def seriesOf (b : VitalSigns) : VitalType → List VitalSign
  | .heartRate => b.heartRate
  | .systolic => b.systolic
  | .diastolic => b.diastolic
  | .spo2 => b.spo2
  | .temperature => b.temperature

/-- The getCurrentValue helper inside calculatePatientStatus: value of the
last sample, or null (none) for an empty series. -/
def getCurrentValue (signs : List VitalSign) : Option ℚ :=
  match signs.getLast? with
  | none => none
  | some lastSign => some lastSign.value

/-- The statuses array built inside calculatePatientStatus: one entry per
vital that has data (an absent/null current value contributes nothing). -/
def statusesOf (vitals : VitalSigns) : List PatientStatus :=
  ((getCurrentValue vitals.heartRate).map (getVitalStatus · .heartRate)).toList ++
  ((getCurrentValue vitals.systolic).map (getVitalStatus · .systolic)).toList ++
  ((getCurrentValue vitals.diastolic).map (getVitalStatus · .diastolic)).toList ++
  ((getCurrentValue vitals.spo2).map (getVitalStatus · .spo2)).toList ++
  ((getCurrentValue vitals.temperature).map (getVitalStatus · .temperature)).toList

/-- calculatePatientStatus from vital-thresholds.ts. -/
def calculatePatientStatus (vitals : VitalSigns) : PatientStatus :=
  let hasAnyData :=
    (getCurrentValue vitals.heartRate).isSome ||
    (getCurrentValue vitals.systolic).isSome ||
    (getCurrentValue vitals.diastolic).isSome ||
    (getCurrentValue vitals.spo2).isSome ||
    (getCurrentValue vitals.temperature).isSome
  if hasAnyData = false then
    .stable
  else
    let statuses := statusesOf vitals
    if PatientStatus.critical ∈ statuses then .critical
    else if PatientStatus.warning ∈ statuses then .warning
    else .stable

/-- getLatestValue from vital-thresholds.ts: last value, or 0 if empty. -/
def getLatestValue (signs : List VitalSign) : ℚ :=
  match signs.getLast? with
  | none => 0
  | some lastSign => lastSign.value

/-- Bounds of the clamp helper when the interval is non-degenerate. -/
theorem clamp_mem (value lo hi : ℚ) (h : lo ≤ hi) :
    lo ≤ clamp value lo hi ∧ clamp value lo hi ≤ hi := by
  unfold clamp
  constructor
  · exact le_max_left _ _
  · exact max_le h (min_le_left _ _)

/-- Every vital's configured minimum is at most its maximum. -/
theorem vitalRange_min_le_max (vt : VitalType) :
    (VITAL_RANGES vt).min ≤ (VITAL_RANGES vt).max := by
  cases vt <;> norm_num [VITAL_RANGES]

/-- C1: for every vital type, every regime and all inputs and random draws,
the outputs of generateBaselineValue and generateVitalUpdate lie within the
[min, max] bounds configured for that vital type in VITAL_RANGES. -/
theorem generation_within_bounds (vt : VitalType) (trend : Trend)
    (coin z cur u1 u2 u3 : ℚ) :
    ((VITAL_RANGES vt).min ≤ generateBaselineValue vt trend coin z ∧
      generateBaselineValue vt trend coin z ≤ (VITAL_RANGES vt).max) ∧
    ((VITAL_RANGES vt).min ≤ generateVitalUpdate cur vt trend u1 u2 u3 ∧
      generateVitalUpdate cur vt trend u1 u2 u3 ≤ (VITAL_RANGES vt).max) := by
  have h := vitalRange_min_le_max vt
  constructor
  · unfold generateBaselineValue
    exact clamp_mem _ _ _ h
  · unfold generateVitalUpdate
    exact clamp_mem _ _ _ h

/-- C9: getLatestValue returns the value of the last sample when the series
is non-empty, and 0 when the series is empty (total function, no error). -/
theorem getLatestValue_spec (signs : List VitalSign) :
    (signs = [] → getLatestValue signs = 0) ∧
    (∀ h : signs ≠ [], getLatestValue signs = (signs.getLast h).value) := by
  constructor
  · intro h
    subst h
    rfl
  · intro h
    unfold getLatestValue
    rw [List.getLast?_eq_getLast signs h]

/-- Witness for C9: the empty series yields 0 and a concrete two-sample
series yields the value of its last sample. -/
theorem getLatestValue_spec_witness :
    getLatestValue [] = 0 ∧
    getLatestValue [⟨0, 7⟩, ⟨5, 9⟩] = (9 : ℚ) :=
  ⟨(getLatestValue_spec []).1 rfl,
    (getLatestValue_spec [⟨0, 7⟩, ⟨5, 9⟩]).2 (by simp)⟩

/-- Predicate: value lies in the inclusive normal band of a vital. -/
def inNormalBand (v : ℚ) (vt : VitalType) : Prop :=
  (THRESHOLDS vt).normalLo ≤ v ∧ v ≤ (THRESHOLDS vt).normalHi

/-- Predicate: value lies in the inclusive warning band of a vital. -/
def inWarningBand (v : ℚ) (vt : VitalType) : Prop :=
  (THRESHOLDS vt).warningLo ≤ v ∧ v ≤ (THRESHOLDS vt).warningHi

instance (v : ℚ) (vt : VitalType) : Decidable (inNormalBand v vt) := by
  unfold inNormalBand
  infer_instance

instance (v : ℚ) (vt : VitalType) : Decidable (inWarningBand v vt) := by
  unfold inWarningBand
  infer_instance

/-- C2: getVitalStatus returns stable exactly on the inclusive normal band,
warning exactly on the inclusive warning band minus the normal band, and
critical otherwise; for heart rate, 60 and 100 are stable, 50 and 120 are
warning, and anything below 50 or above 120 is critical. -/
theorem getVitalStatus_spec (v : ℚ) (vt : VitalType) :
    (getVitalStatus v vt = .stable ↔ inNormalBand v vt) ∧
    (getVitalStatus v vt = .warning ↔ inWarningBand v vt ∧ ¬ inNormalBand v vt) ∧
    (getVitalStatus v vt = .critical ↔ ¬ inNormalBand v vt ∧ ¬ inWarningBand v vt) ∧
    getVitalStatus 60 .heartRate = .stable ∧
    getVitalStatus 100 .heartRate = .stable ∧
    getVitalStatus 50 .heartRate = .warning ∧
    getVitalStatus 120 .heartRate = .warning ∧
    (v < 50 ∨ 120 < v → getVitalStatus v .heartRate = .critical) := by
  have hmain : ∀ (w : ℚ) (t : VitalType),
      (getVitalStatus w t = .stable ↔ inNormalBand w t) ∧
      (getVitalStatus w t = .warning ↔ inWarningBand w t ∧ ¬ inNormalBand w t) ∧
      (getVitalStatus w t = .critical ↔ ¬ inNormalBand w t ∧ ¬ inWarningBand w t) := by
    intro w t
    simp only [getVitalStatus, inNormalBand, inWarningBand]
    split_ifs with h1 h2 <;> simp_all [ge_iff_le]
  refine ⟨(hmain v vt).1, (hmain v vt).2.1, (hmain v vt).2.2, ?_, ?_, ?_, ?_, ?_⟩
  · exact (hmain 60 .heartRate).1.mpr (by norm_num [inNormalBand, THRESHOLDS])
  · exact (hmain 100 .heartRate).1.mpr (by norm_num [inNormalBand, THRESHOLDS])
  · exact (hmain 50 .heartRate).2.1.mpr
      (by norm_num [inNormalBand, inWarningBand, THRESHOLDS])
  · exact (hmain 120 .heartRate).2.1.mpr
      (by norm_num [inNormalBand, inWarningBand, THRESHOLDS])
  · intro h
    refine (hmain v .heartRate).2.2.mpr ?_
    unfold inNormalBand inWarningBand THRESHOLDS
    rcases h with h | h
    · constructor
      · intro hc
        simp only at hc
        linarith [hc.1]
      · intro hc
        simp only at hc
        linarith [hc.1]
    · constructor
      · intro hc
        simp only at hc
        linarith [hc.2]
      · intro hc
        simp only at hc
        linarith [hc.2]

/-- Witness for C2: a heart rate of 40 is below 50 and classifies critical. -/
theorem getVitalStatus_spec_witness : getVitalStatus 40 .heartRate = .critical :=
  (getVitalStatus_spec 40 .heartRate).2.2.2.2.2.2.2 (Or.inl (by norm_num))

/-- A series has a current value exactly when it is non-empty. -/
theorem getCurrentValue_eq_none (signs : List VitalSign) :
    getCurrentValue signs = none ↔ signs = [] := by
  unfold getCurrentValue
  cases h : signs.getLast? with
  | none => simp [List.getLast?_eq_none_iff.mp h]
  | some s =>
    simp only [reduceCtorEq, false_iff]
    intro he
    rw [he] at h
    simp at h

/-- Membership in the statuses array: s occurs exactly when some vital with
data classifies as s on its current value. -/
theorem mem_statusesOf (b : VitalSigns) (s : PatientStatus) :
    s ∈ statusesOf b ↔
      ∃ vt v, getCurrentValue (seriesOf b vt) = some v ∧ getVitalStatus v vt = s := by
  constructor
  · intro h
    unfold statusesOf at h
    simp only [List.mem_append] at h
    rcases h with ((((h | h) | h) | h) | h) <;>
      [ (cases hv : getCurrentValue b.heartRate with
          | none => rw [hv] at h; simp at h
          | some v => rw [hv] at h; simp at h; exact ⟨.heartRate, v, hv, h.symm⟩);
        (cases hv : getCurrentValue b.systolic with
          | none => rw [hv] at h; simp at h
          | some v => rw [hv] at h; simp at h; exact ⟨.systolic, v, hv, h.symm⟩);
        (cases hv : getCurrentValue b.diastolic with
          | none => rw [hv] at h; simp at h
          | some v => rw [hv] at h; simp at h; exact ⟨.diastolic, v, hv, h.symm⟩);
        (cases hv : getCurrentValue b.spo2 with
          | none => rw [hv] at h; simp at h
          | some v => rw [hv] at h; simp at h; exact ⟨.spo2, v, hv, h.symm⟩);
        (cases hv : getCurrentValue b.temperature with
          | none => rw [hv] at h; simp at h
          | some v => rw [hv] at h; simp at h; exact ⟨.temperature, v, hv, h.symm⟩)]
  · rintro ⟨vt, v, hv, hs⟩
    unfold statusesOf
    simp only [List.mem_append]
    cases vt with
    | heartRate =>
      refine Or.inl (Or.inl (Or.inl (Or.inl ?_)))
      rw [show getCurrentValue b.heartRate = some v from hv]
      simp [hs]
    | systolic =>
      refine Or.inl (Or.inl (Or.inl (Or.inr ?_)))
      rw [show getCurrentValue b.systolic = some v from hv]
      simp [hs]
    | diastolic =>
      refine Or.inl (Or.inl (Or.inr ?_))
      rw [show getCurrentValue b.diastolic = some v from hv]
      simp [hs]
    | spo2 =>
      refine Or.inl (Or.inr ?_)
      rw [show getCurrentValue b.spo2 = some v from hv]
      simp [hs]
    | temperature =>
      refine Or.inr ?_
      rw [show getCurrentValue b.temperature = some v from hv]
      simp [hs]

/-- An option whose isSome flag is false is none. -/
theorem isSome_false_eq_none {α : Type} {o : Option α} (h : o.isSome = false) :
    o = none := by
  cases o with
  | none => rfl
  | some a => simp at h

/-- With no current value anywhere, the statuses array is empty. -/
theorem no_data_statusesOf (b : VitalSigns)
    (e1 : getCurrentValue b.heartRate = none)
    (e2 : getCurrentValue b.systolic = none)
    (e3 : getCurrentValue b.diastolic = none)
    (e4 : getCurrentValue b.spo2 = none)
    (e5 : getCurrentValue b.temperature = none) :
    statusesOf b = [] := by
  simp [statusesOf, e1, e2, e3, e4, e5]

/-- calculatePatientStatus is the worst-wins fold over the statuses array;
the no-data early return coincides with the empty-array fallthrough. -/
theorem calculatePatientStatus_eq (b : VitalSigns) :
    calculatePatientStatus b =
      if PatientStatus.critical ∈ statusesOf b then .critical
      else if PatientStatus.warning ∈ statusesOf b then .warning
      else .stable := by
  simp only [calculatePatientStatus]
  split_ifs with h0 h1 h2 <;> try rfl
  all_goals {
    exfalso
    simp only [Bool.or_eq_false_iff] at h0
    obtain ⟨⟨⟨⟨e1, e2⟩, e3⟩, e4⟩, e5⟩ := h0
    have hemp : statusesOf b = [] :=
      no_data_statusesOf b (isSome_false_eq_none e1) (isSome_false_eq_none e2)
        (isSome_false_eq_none e3) (isSome_false_eq_none e4) (isSome_false_eq_none e5)
    first
    | (rw [hemp] at h1
       exact absurd h1 (List.not_mem_nil _))
    | (rw [hemp] at h2
       exact absurd h2 (List.not_mem_nil _)) }

/-- C3: calculatePatientStatus returns critical iff some vital with at
least one sample classifies critical on its latest value, and stable iff
every vital with data classifies stable or no vital has any sample. -/
theorem calculatePatientStatus_spec (b : VitalSigns) :
    (calculatePatientStatus b = .critical ↔
      ∃ vt v, getCurrentValue (seriesOf b vt) = some v ∧
        getVitalStatus v vt = .critical) ∧
    (calculatePatientStatus b = .stable ↔
      ((∀ vt v, getCurrentValue (seriesOf b vt) = some v →
          getVitalStatus v vt = .stable) ∨
        ∀ vt, seriesOf b vt = [])) := by
  rw [calculatePatientStatus_eq b]
  constructor
  · constructor
    · intro h
      split_ifs at h with hc hw
      exact (mem_statusesOf b .critical).mp hc
    · rintro ⟨vt, v, hv, hs⟩
      have hc : PatientStatus.critical ∈ statusesOf b :=
        (mem_statusesOf b .critical).mpr ⟨vt, v, hv, hs⟩
      simp [hc]
  · constructor
    · intro h
      split_ifs at h with hc hw
      left
      intro vt v hv
      have hmem : getVitalStatus v vt ∈ statusesOf b :=
        (mem_statusesOf b _).mpr ⟨vt, v, hv, rfl⟩
      cases hst : getVitalStatus v vt with
      | stable => rfl
      | warning => exact absurd (hst ▸ hmem) hw
      | critical => exact absurd (hst ▸ hmem) hc
    · intro h
      have hempty : ∀ s, s ∈ statusesOf b → s = .stable := by
        rcases h with h | h
        · intro s hs
          obtain ⟨vt, v, hv, hcl⟩ := (mem_statusesOf b s).mp hs
          rw [← hcl]
          exact h vt v hv
        · intro s hs
          obtain ⟨vt, v, hv, _⟩ := (mem_statusesOf b s).mp hs
          rw [(getCurrentValue_eq_none _).mpr (h vt)] at hv
          exact absurd hv (by simp)
      have hc : PatientStatus.critical ∉ statusesOf b := by
        intro hmem
        exact absurd (hempty _ hmem) (by decide)
      have hw : PatientStatus.warning ∉ statusesOf b := by
        intro hmem
        exact absurd (hempty _ hmem) (by decide)
      simp [hc, hw]

/-- Modelled from the words of the specification sentence for the baseline
generator: in the warning regime the sampling mean is the nominal mean
shifted by plus or minus 15 percent (direction per the coin draw) with
stdDev widened by 1.2, and in the critical regime shifted by plus or minus
30 percent with stdDev widened by 1.5; used only to compare against the
source definition generateBaselineValue. -/
def specBaselineValue (vitalType : VitalType) (trend : Trend)
    (coin z : ℚ) : ℚ :=
  let range := VITAL_RANGES vitalType
  let value : ℚ :=
    match trend with
    | .normal => gaussianRandom z range.mean range.stdDev
    | .warning =>
      let shiftedMean :=
        if coin > 0.5 then range.mean * (1 + 15 / 100) else range.mean * (1 - 15 / 100)
      gaussianRandom z shiftedMean (range.stdDev * 1.2)
    | .critical =>
      let shiftedMean :=
        if coin > 0.5 then range.mean * (1 + 30 / 100) else range.mean * (1 - 30 / 100)
      gaussianRandom z shiftedMean (range.stdDev * 1.5)
  clamp value range.min range.max

/-- Counterexample for C5: for heart rate in the warning regime with the
downward direction (coin = 0) and a central draw (z = 0), the source
samples around mean times 0.9 (67.5), not mean minus 15 percent (63.75). -/
theorem generateBaselineValue_ne_spec :
    generateBaselineValue .heartRate .warning 0 0 ≠
      specBaselineValue .heartRate .warning 0 0 := by
  norm_num [generateBaselineValue, specBaselineValue, gaussianRandom, clamp,
    VITAL_RANGES]

/-- The baseline generator as the code actually behaves: warning shifts the
mean up by 15 percent or down by 10 percent (times 1.15 or times 0.9),
critical up by 30 percent or down by 20 percent (times 1.3 or times 0.8). -/
def specBaselineValueAmended (vitalType : VitalType) (trend : Trend)
    (coin z : ℚ) : ℚ :=
  let range := VITAL_RANGES vitalType
  let value : ℚ :=
    match trend with
    | .normal => gaussianRandom z range.mean range.stdDev
    | .warning =>
      let shiftedMean :=
        if coin > 0.5 then range.mean * (1 + 15 / 100) else range.mean * (1 - 10 / 100)
      gaussianRandom z shiftedMean (range.stdDev * 1.2)
    | .critical =>
      let shiftedMean :=
        if coin > 0.5 then range.mean * (1 + 30 / 100) else range.mean * (1 - 20 / 100)
      gaussianRandom z shiftedMean (range.stdDev * 1.5)
  clamp value range.min range.max

/-- C5 (amended): generateBaselineValue samples from a Gaussian whose mean
is shifted up by 15 percent or down by 10 percent in the warning regime
(stdDev widened by 1.2) and up by 30 percent or down by 20 percent in the
critical regime (stdDev widened by 1.5), the result clamped to [min, max]. -/
theorem generateBaselineValue_amended (vt : VitalType) (trend : Trend)
    (coin z : ℚ) :
    generateBaselineValue vt trend coin z =
      specBaselineValueAmended vt trend coin z := by
  cases trend <;>
    simp only [generateBaselineValue, specBaselineValueAmended, gaussianRandom] <;>
    split_ifs <;> norm_num

/-- Modelled from the words of the specification sentences for the update
step: proportional noise 0.015 times a U(-1,1) variable, drift toward a
regime target with base strength 0.08, where the warning worsening branch
(probability 0.05) targets the mean shifted by plus or minus 12 percent;
used only to compare against the source definition generateVitalUpdate. -/
def specVitalUpdate (currentValue : ℚ) (vitalType : VitalType)
    (trendBias : Trend) (u1 u2 u3 : ℚ) : ℚ :=
  let range := VITAL_RANGES vitalType
  let noise := currentValue * 0.015 * (u1 * 2 - 1)
  let driftStrength : ℚ := 0.08
  let drift : ℚ :=
    match trendBias with
    | .normal => (range.mean - currentValue) * driftStrength * 1.5
    | .warning =>
      if u2 < 0.05 then
        let target :=
          if u3 > 0.5 then range.mean * (1 + 12 / 100) else range.mean * (1 - 12 / 100)
        (target - currentValue) * driftStrength * 1
      else
        (range.mean - currentValue) * driftStrength * 0.8
    | .critical =>
      if u2 < 0.08 then
        let target :=
          if u3 > 0.5 then range.max * (85 / 100) else range.min * (115 / 100)
        (target - currentValue) * driftStrength * 1.5
      else
        (range.mean - currentValue) * driftStrength * 0.5
  clamp (currentValue + noise + drift) range.min range.max

/-- Counterexample for C6: for heart rate at the mean (75) in the warning
regime, zero noise (u1 = 1/2), worsening branch taken (u2 = 0), downward
direction (u3 = 0), the source targets mean times 0.92 giving 74.52, not
mean minus 12 percent which would give 74.28. -/
theorem generateVitalUpdate_ne_spec :
    generateVitalUpdate 75 .heartRate .warning (1 / 2) 0 0 ≠
      specVitalUpdate 75 .heartRate .warning (1 / 2) 0 0 := by
  norm_num [generateVitalUpdate, specVitalUpdate, clamp, VITAL_RANGES]

/-- The update step as the code actually behaves: identical to the claim
except that the warning worsening target shifted downward is the mean
times 0.92 (down 8 percent), not down 12 percent. -/
def specVitalUpdateAmended (currentValue : ℚ) (vitalType : VitalType)
    (trendBias : Trend) (u1 u2 u3 : ℚ) : ℚ :=
  let range := VITAL_RANGES vitalType
  let noise := currentValue * 0.015 * (u1 * 2 - 1)
  let driftStrength : ℚ := 0.08
  let drift : ℚ :=
    match trendBias with
    | .normal => (range.mean - currentValue) * driftStrength * 1.5
    | .warning =>
      if u2 < 0.05 then
        let target :=
          if u3 > 0.5 then range.mean * (1 + 12 / 100) else range.mean * (1 - 8 / 100)
        (target - currentValue) * driftStrength * 1
      else
        (range.mean - currentValue) * driftStrength * 0.8
    | .critical =>
      if u2 < 0.08 then
        let target :=
          if u3 > 0.5 then range.max * (85 / 100) else range.min * (115 / 100)
        (target - currentValue) * driftStrength * 1.5
      else
        (range.mean - currentValue) * driftStrength * 0.5
  clamp (currentValue + noise + drift) range.min range.max

/-- C6 (amended): generateVitalUpdate computes current + noise + drift with
noise = current times 0.015 times U(-1,1) and drift strength 0.08; normal
drifts to the mean times 1.5; warning with probability 0.05 targets the
mean shifted up 12 percent or down 8 percent (times 1.0), otherwise the
mean times 0.8; critical with probability 0.08 targets 85 percent of max
or 115 percent of min (times 1.5), otherwise the mean times 0.5. -/
theorem generateVitalUpdate_amended (cur : ℚ) (vt : VitalType)
    (trend : Trend) (u1 u2 u3 : ℚ) :
    generateVitalUpdate cur vt trend u1 u2 u3 =
      specVitalUpdateAmended cur vt trend u1 u2 u3 := by
  cases trend <;>
    simp only [generateVitalUpdate, specVitalUpdateAmended] <;>
    (try split_ifs) <;> norm_num

/-- The for-loop of generateVitalHistory: at the step with r + 1 samples
still to emit, the loop index is i = count - (r + 1) and the timestamp is
now - (count - i - 1) * intervalMs = now - r * intervalMs; the next value
is generateVitalUpdate of the current one, drawing from the stream upd. -/
def historyAux (vitalType : VitalType) (trend : Trend) (intervalMs now : ℤ)
    (upd : ℕ → ℚ × ℚ × ℚ) : ℕ → ℕ → ℚ → List VitalSign
  | _, 0, _ => []
  | i, r + 1, cur =>
    ⟨now - (r : ℤ) * intervalMs, cur⟩ ::
      historyAux vitalType trend intervalMs now upd (i + 1) r
        (generateVitalUpdate cur vitalType trend (upd i).1 (upd i).2.1 (upd i).2.2)

/-- generateVitalHistory from vital-generation.ts: count samples ending at
now, seeded by generateBaselineValue and evolved by generateVitalUpdate. -/
def generateVitalHistory (vitalType : VitalType) (count : ℕ) (intervalMs : ℤ)
    (trend : Trend) (now : ℤ) (coin z : ℚ) (upd : ℕ → ℚ × ℚ × ℚ) :
    List VitalSign :=
  historyAux vitalType trend intervalMs now upd 0 count
    (generateBaselineValue vitalType trend coin z)

/-- Bounds of one update step, shared helper. -/
theorem generateVitalUpdate_mem_bounds (cur : ℚ) (vt : VitalType)
    (trend : Trend) (u1 u2 u3 : ℚ) :
    (VITAL_RANGES vt).min ≤ generateVitalUpdate cur vt trend u1 u2 u3 ∧
      generateVitalUpdate cur vt trend u1 u2 u3 ≤ (VITAL_RANGES vt).max := by
  unfold generateVitalUpdate
  exact clamp_mem _ _ _ (vitalRange_min_le_max vt)

/-- Bounds of the baseline draw, shared helper. -/
theorem generateBaselineValue_mem_bounds (vt : VitalType) (trend : Trend)
    (coin z : ℚ) :
    (VITAL_RANGES vt).min ≤ generateBaselineValue vt trend coin z ∧
      generateBaselineValue vt trend coin z ≤ (VITAL_RANGES vt).max := by
  unfold generateBaselineValue
  exact clamp_mem _ _ _ (vitalRange_min_le_max vt)

/-- The history loop emits exactly as many samples as remain. -/
theorem historyAux_length (vt : VitalType) (trend : Trend) (I now : ℤ)
    (upd : ℕ → ℚ × ℚ × ℚ) :
    ∀ (r i : ℕ) (cur : ℚ), (historyAux vt trend I now upd i r cur).length = r := by
  intro r
  induction r with
  | zero => intro i cur; rfl
  | succ r ih => intro i cur; simp [historyAux, ih]

/-- Timestamp of the j-th emitted sample. -/
theorem historyAux_getD_timestamp (vt : VitalType) (trend : Trend) (I now : ℤ)
    (upd : ℕ → ℚ × ℚ × ℚ) :
    ∀ (r i : ℕ) (cur : ℚ) (j : ℕ), j < r →
      ((historyAux vt trend I now upd i r cur).getD j ⟨0, 0⟩).timestamp =
        now - ((r - 1 - j : ℕ) : ℤ) * I := by
  intro r
  induction r with
  | zero => intro i cur j hj; omega
  | succ r ih =>
    intro i cur j hj
    cases j with
    | zero => simp [historyAux]
    | succ j =>
      have hj' : j < r := Nat.lt_of_succ_lt_succ hj
      simp only [historyAux, List.getD_cons_succ]
      rw [ih (i + 1) _ j hj']
      have he : (r + 1) - 1 - (j + 1) = r - 1 - j := by omega
      rw [he]

/-- The first emitted sample carries the seed value. -/
theorem historyAux_getD_zero_value (vt : VitalType) (trend : Trend) (I now : ℤ)
    (upd : ℕ → ℚ × ℚ × ℚ) :
    ∀ (r i : ℕ) (cur : ℚ), 0 < r →
      ((historyAux vt trend I now upd i r cur).getD 0 ⟨0, 0⟩).value = cur := by
  intro r i cur hr
  cases r with
  | zero => omega
  | succ r => simp [historyAux]

/-- Each later sample is one update step applied to its predecessor. -/
theorem historyAux_value_step (vt : VitalType) (trend : Trend) (I now : ℤ)
    (upd : ℕ → ℚ × ℚ × ℚ) :
    ∀ (r i j : ℕ) (cur : ℚ), j + 1 < r →
      ((historyAux vt trend I now upd i r cur).getD (j + 1) ⟨0, 0⟩).value =
        generateVitalUpdate
          (((historyAux vt trend I now upd i r cur).getD j ⟨0, 0⟩).value)
          vt trend (upd (i + j)).1 (upd (i + j)).2.1 (upd (i + j)).2.2 := by
  intro r
  induction r with
  | zero => intro i j cur h; omega
  | succ r ih =>
    intro i j cur h
    cases j with
    | zero =>
      have hr : 0 < r := by omega
      simp only [historyAux, List.getD_cons_succ, List.getD_cons_zero]
      rw [historyAux_getD_zero_value vt trend I now upd r (i + 1) _ hr]
      simp
    | succ j =>
      have h' : j + 1 < r := by omega
      simp only [historyAux, List.getD_cons_succ]
      rw [ih (i + 1) j _ h']
      have he : i + 1 + j = i + (j + 1) := by omega
      rw [he]

/-- Every emitted value stays within the vital's bounds once the seed does. -/
theorem historyAux_mem_bounds (vt : VitalType) (trend : Trend) (I now : ℤ)
    (upd : ℕ → ℚ × ℚ × ℚ) :
    ∀ (r i : ℕ) (cur : ℚ),
      (VITAL_RANGES vt).min ≤ cur → cur ≤ (VITAL_RANGES vt).max →
      ∀ x ∈ historyAux vt trend I now upd i r cur,
        (VITAL_RANGES vt).min ≤ x.value ∧ x.value ≤ (VITAL_RANGES vt).max := by
  intro r
  induction r with
  | zero => intro i cur h1 h2 x hx; simp [historyAux] at hx
  | succ r ih =>
    intro i cur h1 h2 x hx
    simp only [historyAux, List.mem_cons] at hx
    rcases hx with rfl | hx
    · exact ⟨h1, h2⟩
    · have hb := generateVitalUpdate_mem_bounds cur vt trend
        (upd i).1 (upd i).2.1 (upd i).2.2
      exact ih (i + 1) _ hb.1 hb.2 x hx

/-- C7: generateVitalHistory returns exactly count samples; the j-th
timestamp is now - (count - 1 - j) * intervalMs, so consecutive samples
are spaced exactly intervalMs apart and the last timestamp is the call
time; the first value is the baseline draw and each subsequent value is
one update step applied to the previous value; in particular the
spo2/10/30000/normal call yields 10 samples, each value within [85, 100]. -/
theorem generateVitalHistory_spec (vt : VitalType) (count : ℕ)
    (intervalMs now : ℤ) (trend : Trend) (coin z : ℚ)
    (upd : ℕ → ℚ × ℚ × ℚ) :
    (generateVitalHistory vt count intervalMs trend now coin z upd).length = count ∧
    (∀ j, j < count →
      ((generateVitalHistory vt count intervalMs trend now coin z upd).getD j
          ⟨0, 0⟩).timestamp =
        now - ((count - 1 - j : ℕ) : ℤ) * intervalMs) ∧
    (∀ j, j + 1 < count →
      ((generateVitalHistory vt count intervalMs trend now coin z upd).getD (j + 1)
          ⟨0, 0⟩).timestamp -
        ((generateVitalHistory vt count intervalMs trend now coin z upd).getD j
          ⟨0, 0⟩).timestamp = intervalMs) ∧
    (0 < count →
      ((generateVitalHistory vt count intervalMs trend now coin z upd).getD
          (count - 1) ⟨0, 0⟩).timestamp = now) ∧
    (0 < count →
      ((generateVitalHistory vt count intervalMs trend now coin z upd).getD 0
          ⟨0, 0⟩).value = generateBaselineValue vt trend coin z) ∧
    (∀ j, j + 1 < count →
      ((generateVitalHistory vt count intervalMs trend now coin z upd).getD (j + 1)
          ⟨0, 0⟩).value =
        generateVitalUpdate
          (((generateVitalHistory vt count intervalMs trend now coin z upd).getD j
            ⟨0, 0⟩).value)
          vt trend (upd j).1 (upd j).2.1 (upd j).2.2) ∧
    ((generateVitalHistory .spo2 10 30000 .normal now coin z upd).length = 10 ∧
      ∀ x ∈ generateVitalHistory .spo2 10 30000 .normal now coin z upd,
        85 ≤ x.value ∧ x.value ≤ 100) := by
  simp only [generateVitalHistory]
  refine ⟨historyAux_length vt trend intervalMs now upd count 0 _, ?_, ?_, ?_, ?_, ?_, ?_, ?_⟩
  · intro j hj
    exact historyAux_getD_timestamp vt trend intervalMs now upd count 0 _ j hj
  · intro j hj
    rw [historyAux_getD_timestamp vt trend intervalMs now upd count 0 _ (j + 1) hj,
      historyAux_getD_timestamp vt trend intervalMs now upd count 0 _ j (by omega)]
    have hb : (count - 1 - j : ℕ) = (count - 1 - (j + 1) : ℕ) + 1 := by omega
    rw [hb]
    push_cast
    ring
  · intro hc
    rw [historyAux_getD_timestamp vt trend intervalMs now upd count 0 _ (count - 1)
      (by omega)]
    have he : (count - 1 - (count - 1) : ℕ) = 0 := by omega
    rw [he]
    simp
  · intro hc
    exact historyAux_getD_zero_value vt trend intervalMs now upd count 0 _ hc
  · intro j hj
    have h := historyAux_value_step vt trend intervalMs now upd count 0 j
      (generateBaselineValue vt trend coin z) hj
    simpa using h
  · exact historyAux_length .spo2 .normal 30000 now upd 10 0 _
  · intro x hx
    have hb := generateBaselineValue_mem_bounds .spo2 .normal coin z
    exact historyAux_mem_bounds .spo2 .normal 30000 now upd 10 0 _ hb.1 hb.2 x hx

/-- Witness for C7: a concrete spo2 history of 10 samples ending at time
12345 has its last (10th) sample stamped exactly at the call time. -/
theorem generateVitalHistory_spec_witness :
    ((generateVitalHistory .spo2 10 30000 .normal 12345 0 0
        (fun _ => (0, 0, 0))).getD 9 ⟨0, 0⟩).timestamp = 12345 := by
  have h := (generateVitalHistory_spec .spo2 10 30000 12345 .normal 0 0
    (fun _ => (0, 0, 0))).2.2.2.1 (by norm_num)
  simpa using h

/-- MAX_HISTORY_POINTS from vitals-store.ts. -/
def MAX_HISTORY_POINTS : ℕ := 10

/-- The append-and-trim step inside updateVitals: push the new sign, then
shift (drop the front element) when the length exceeds the capacity. -/
def appendSign (signs : List VitalSign) (newSign : VitalSign) : List VitalSign :=
  let updatedSigns := signs ++ [newSign]
  if MAX_HISTORY_POINTS < updatedSigns.length then updatedSigns.tail
  else updatedSigns

/-- Timestamp order between two samples. -/
def tsLe (a b : VitalSign) : Prop := a.timestamp ≤ b.timestamp

/-- Appending preserves the capacity bound. -/
theorem appendSign_length_le (signs : List VitalSign) (s : VitalSign)
    (h : signs.length ≤ MAX_HISTORY_POINTS) :
    (appendSign signs s).length ≤ MAX_HISTORY_POINTS := by
  simp only [appendSign]
  split_ifs with hlen <;>
    simp only [List.length_tail, List.length_append, List.length_cons,
      List.length_nil] at * <;>
    omega

/-- The appended series only holds old elements and the new sign. -/
theorem appendSign_subset (signs : List VitalSign) (s : VitalSign) :
    ∀ x ∈ appendSign signs s, x ∈ signs ++ [s] := by
  simp only [appendSign]
  split_ifs with h
  · intro x hx
    exact List.mem_of_mem_tail hx
  · intro x hx
    exact hx

/-- Appending a sign no older than everything present keeps the series
sorted by timestamp. -/
theorem appendSign_pairwise (signs : List VitalSign) (s : VitalSign)
    (hp : signs.Pairwise tsLe)
    (hle : ∀ x ∈ signs, x.timestamp ≤ s.timestamp) :
    (appendSign signs s).Pairwise tsLe := by
  have hall : (signs ++ [s]).Pairwise tsLe := by
    rw [List.pairwise_append]
    refine ⟨hp, List.pairwise_singleton _ _, ?_⟩
    intro x hx y hy
    simp only [List.mem_singleton] at hy
    subst hy
    exact hle x hx
  simp only [appendSign]
  split_ifs with h
  · exact hall.sublist (List.tail_sublist _)
  · exact hall

/-- At capacity, appending evicts exactly the oldest (front) sample. -/
theorem appendSign_evicts_oldest (signs : List VitalSign) (s : VitalSign)
    (h : MAX_HISTORY_POINTS ≤ signs.length) :
    appendSign signs s = signs.tail ++ [s] := by
  simp only [appendSign]
  rw [if_pos (by simp only [List.length_append, List.length_cons,
    List.length_nil]; omega)]
  cases signs with
  | nil => simp [MAX_HISTORY_POINTS] at h
  | cons a as => simp

/-- Folding appends whose timestamps are ordered and no older than the
initial series preserves the capacity bound and the timestamp order. -/
theorem foldl_appendSign_invariant :
    ∀ (appends init : List VitalSign),
      init.length ≤ MAX_HISTORY_POINTS →
      init.Pairwise tsLe →
      appends.Pairwise tsLe →
      (∀ a ∈ appends, ∀ x ∈ init, x.timestamp ≤ a.timestamp) →
      (appends.foldl appendSign init).length ≤ MAX_HISTORY_POINTS ∧
        (appends.foldl appendSign init).Pairwise tsLe := by
  intro appends
  induction appends with
  | nil => intro init h1 h2 _ _; exact ⟨h1, h2⟩
  | cons a as ih =>
    intro init h1 h2 h3 h4
    rw [List.foldl_cons]
    obtain ⟨ha, has⟩ := List.pairwise_cons.mp h3
    apply ih
    · exact appendSign_length_le init a h1
    · exact appendSign_pairwise init a h2
        (fun x hx => h4 a (List.mem_cons_self a as) x hx)
    · exact has
    · intro b hb x hx
      rcases List.mem_append.mp (appendSign_subset init a x hx) with hxi | hxa
      · exact h4 b (List.mem_cons_of_mem a hb) x hxi
      · simp only [List.mem_singleton] at hxa
        subst hxa
        exact ha b hb

/-- Every timestamp the history loop emits is now minus a multiple of the
interval below the remaining count. -/
theorem historyAux_mem_timestamp (vt : VitalType) (trend : Trend)
    (I now : ℤ) (upd : ℕ → ℚ × ℚ × ℚ) :
    ∀ (r i : ℕ) (cur : ℚ), ∀ x ∈ historyAux vt trend I now upd i r cur,
      ∃ j : ℕ, j < r ∧ x.timestamp = now - (j : ℤ) * I := by
  intro r
  induction r with
  | zero => intro i cur x hx; simp [historyAux] at hx
  | succ r ih =>
    intro i cur x hx
    simp only [historyAux, List.mem_cons] at hx
    rcases hx with rfl | hx
    · exact ⟨r, Nat.lt_succ_self r, rfl⟩
    · obtain ⟨j, hj, he⟩ := ih (i + 1) _ x hx
      exact ⟨j, Nat.lt_succ_of_lt hj, he⟩

/-- With a non-negative interval the history loop emits timestamps in
non-decreasing order. -/
theorem historyAux_pairwise (vt : VitalType) (trend : Trend) (I now : ℤ)
    (upd : ℕ → ℚ × ℚ × ℚ) (hI : 0 ≤ I) :
    ∀ (r i : ℕ) (cur : ℚ),
      (historyAux vt trend I now upd i r cur).Pairwise tsLe := by
  intro r
  induction r with
  | zero => intro i cur; exact List.Pairwise.nil
  | succ r ih =>
    intro i cur
    simp only [historyAux]
    rw [List.pairwise_cons]
    refine ⟨?_, ih (i + 1) _⟩
    intro b hb
    obtain ⟨j, hj, he⟩ := historyAux_mem_timestamp vt trend I now upd r (i + 1) _ b hb
    unfold tsLe
    rw [he]
    have hjr : (j : ℤ) ≤ (r : ℤ) := by exact_mod_cast Nat.le_of_lt hj
    have h2 : (j : ℤ) * I ≤ (r : ℤ) * I := mul_le_mul_of_nonneg_right hjr hI
    simp only []
    linarith

/-- C4: a series initialized by generateVitalHistory with at most 10
samples and then extended by any ordered sequence of appends stays at
length at most 10 with non-decreasing timestamps, and once at capacity
each append evicts exactly the oldest (front) sample. -/
theorem series_invariant (vt : VitalType) (count : ℕ) (intervalMs now : ℤ)
    (trend : Trend) (coin z : ℚ) (upd : ℕ → ℚ × ℚ × ℚ)
    (appends : List VitalSign)
    (hcount : count ≤ MAX_HISTORY_POINTS) (hI : 0 ≤ intervalMs)
    (happ : appends.Pairwise tsLe)
    (hafter : ∀ a ∈ appends, now ≤ a.timestamp) :
    (appends.foldl appendSign
        (generateVitalHistory vt count intervalMs trend now coin z upd)).length ≤
      MAX_HISTORY_POINTS ∧
    (appends.foldl appendSign
        (generateVitalHistory vt count intervalMs trend now coin z upd)).Pairwise
      tsLe ∧
    (∀ signs newSign, MAX_HISTORY_POINTS ≤ List.length signs →
      appendSign signs newSign = signs.tail ++ [newSign]) := by
  have hinit_len :
      (generateVitalHistory vt count intervalMs trend now coin z upd).length ≤
        MAX_HISTORY_POINTS := by
    simp only [generateVitalHistory]
    rw [historyAux_length]
    exact hcount
  have hinit_pw :
      (generateVitalHistory vt count intervalMs trend now coin z upd).Pairwise
        tsLe :=
    historyAux_pairwise vt trend intervalMs now upd hI count 0 _
  have hinit_le_now :
      ∀ x ∈ generateVitalHistory vt count intervalMs trend now coin z upd,
        x.timestamp ≤ now := by
    intro x hx
    obtain ⟨j, _, he⟩ :=
      historyAux_mem_timestamp vt trend intervalMs now upd count 0 _ x hx
    rw [he]
    have : (0 : ℤ) ≤ (j : ℤ) * intervalMs :=
      mul_nonneg (by exact_mod_cast Nat.zero_le j) hI
    linarith
  have h4 :
      ∀ a ∈ appends,
        ∀ x ∈ generateVitalHistory vt count intervalMs trend now coin z upd,
          x.timestamp ≤ a.timestamp :=
    fun a ha x hx => le_trans (hinit_le_now x hx) (hafter a ha)
  obtain ⟨hl, hp⟩ :=
    foldl_appendSign_invariant appends _ hinit_len hinit_pw happ h4
  exact ⟨hl, hp, fun signs newSign h => appendSign_evicts_oldest signs newSign h⟩

/-- Witness for C4: one append onto a full 10-sample heart-rate history
keeps the series at 10 samples. -/
theorem series_invariant_witness :
    (([⟨5, 1⟩] : List VitalSign).foldl appendSign
        (generateVitalHistory .heartRate 10 30000 .normal 0 0 0
          (fun _ => (0, 0, 0)))).length ≤ MAX_HISTORY_POINTS :=
  (series_invariant .heartRate 10 30000 0 .normal 0 0 (fun _ => (0, 0, 0))
    [⟨5, 1⟩] (by norm_num [MAX_HISTORY_POINTS]) (by norm_num)
    (List.pairwise_singleton _ _) (by simp)).1

/-- VitalsState from vitals-store.ts. The patient-to-bundle Map is
modelled extensionally as a function to Option (the source copies the Map
before writing, so each update publishes a fresh value); the setInterval
handle is an optional integer. -/
structure VitalsState where
  patientVitals : String → Option VitalSigns
  isSimulating : Bool
  simulationInterval : Option ℤ

/-- updateVitals from vitals-store.ts. `time` is the Date.now() stamp of
the tick and `draws` the three uniform draws generateVitalUpdate consumes
for each vital type. A missing patient id logs a warning and returns the
state unchanged. -/
def updateVitals (state : VitalsState) (patientId : String) (time : ℤ)
    (draws : VitalType → ℚ × ℚ × ℚ) : VitalsState :=
  match state.patientVitals patientId with
  | none => state
  | some currentVitals =>
    let currentStatus := calculatePatientStatus currentVitals
    let trendBias : Trend :=
      match currentStatus with
      | .stable => .normal
      | .warning => .warning
      | .critical => .critical
    let step : VitalType → List VitalSign → List VitalSign :=
      fun vitalType currentSigns =>
        let lastValue :=
          match currentSigns.getLast? with
          | none => 0
          | some lastSign => lastSign.value
        let newValue :=
          generateVitalUpdate lastValue vitalType trendBias
            (draws vitalType).1 (draws vitalType).2.1 (draws vitalType).2.2
        appendSign currentSigns ⟨time, newValue⟩
    let updatedVitals : VitalSigns :=
      { heartRate := step .heartRate currentVitals.heartRate
        systolic := step .systolic currentVitals.systolic
        diastolic := step .diastolic currentVitals.diastolic
        spo2 := step .spo2 currentVitals.spo2
        temperature := step .temperature currentVitals.temperature }
    { state with
        patientVitals := fun pid =>
          if pid = patientId then some updatedVitals
          else state.patientVitals pid }

/-- C8: updateVitals on a patient id with no bundle in the map returns the
session state unchanged (the embedding is a total function: no error). -/
theorem updateVitals_missing_patient (s : VitalsState) (pid : String)
    (t : ℤ) (draws : VitalType → ℚ × ℚ × ℚ)
    (h : s.patientVitals pid = none) :
    updateVitals s pid t draws = s := by
  unfold updateVitals
  rw [h]

/-- Witness for C8: updating an unknown patient in the empty session is a
no-op. -/
theorem updateVitals_missing_patient_witness :
    updateVitals ⟨fun _ => none, false, none⟩ "p1" 0 (fun _ => (0, 0, 0)) =
      ⟨fun _ => none, false, none⟩ :=
  updateVitals_missing_patient ⟨fun _ => none, false, none⟩ "p1" 0
    (fun _ => (0, 0, 0)) rfl

/-- C10: updateVitals on a present patient rewrites only that patient's
bundle: every other patient's bundle, the isSimulating flag and the
simulationInterval handle are unchanged. -/
theorem updateVitals_frame (s : VitalsState) (pid : String) (b : VitalSigns)
    (t : ℤ) (draws : VitalType → ℚ × ℚ × ℚ)
    (h : s.patientVitals pid = some b) :
    (∀ q, q ≠ pid →
      (updateVitals s pid t draws).patientVitals q = s.patientVitals q) ∧
    (updateVitals s pid t draws).isSimulating = s.isSimulating ∧
    (updateVitals s pid t draws).simulationInterval = s.simulationInterval := by
  unfold updateVitals
  rw [h]
  refine ⟨?_, rfl, rfl⟩
  intro q hq
  simp [hq]

/-- Witness for C10: in a two-patient session, updating patient a leaves
patient b's (absent) entry and the flags untouched. -/
theorem updateVitals_frame_witness :
    (updateVitals
        ⟨fun p => if p = "a" then some ⟨[], [], [], [], []⟩ else none,
          false, none⟩
        "a" 0 (fun _ => (0, 0, 0))).patientVitals "b" = none :=
  (updateVitals_frame
    ⟨fun p => if p = "a" then some ⟨[], [], [], [], []⟩ else none, false, none⟩
    "a" ⟨[], [], [], [], []⟩ 0 (fun _ => (0, 0, 0)) (by simp)).1 "b" (by simp)
